import Mathlib

/-!
BNPL-Upgradable: Hardhat configuration and the deploy / upgrade scripts.

A shallow embedding of

* `hardhat.config.js` (the `accounts` task and the exported configuration object),
* `scripts/deploy.js`,
* `scripts/upgrada.js`.

JavaScript values are a small inductive type, the external helpers
(`ethers.getContractFactory`, `upgrades.deployProxy`, `upgrades.upgradeProxy`,
`ethers.getSigners`) are parameters acting on an abstract world state, and a script is a
state-passing computation that either returns or throws, recording every helper call,
every `console.log` / `console.error` line and the `process.exit` code in a trace.
-/

namespace BNPL

/-! ## JavaScript values -/

/-- The JavaScript values the scripts and the configuration handle. -/
inductive JsVal where
  | undefined
  | null
  | bool (b : Bool)
  | str (s : String)
  | arr (items : List JsVal)
  | obj (props : List (String × JsVal))

/-- Own-property lookup in an object written as a key/value list; a missing key reads as
`undefined`. -/
def lookupProp : List (String × JsVal) → String → JsVal
  | [], _ => JsVal.undefined
  | (k, v) :: rest, name => if k = name then v else lookupProp rest name

/-- The error value thrown by the JavaScript runtime itself. -/
def typeError : JsVal := JsVal.obj [("name", JsVal.str "TypeError")]

/-- Property read `v.name`: throws a `TypeError` on `undefined` and `null`, reads the
property of an object, and is `undefined` on the other values (no such property). -/
def JsVal.getProp (v : JsVal) (name : String) : Except JsVal JsVal :=
  match v with
  | JsVal.undefined => Except.error typeError
  | JsVal.null => Except.error typeError
  | JsVal.obj props => Except.ok (lookupProp props name)
  | _ => Except.ok JsVal.undefined

/-- JavaScript truthiness on the values of the model. -/
def JsVal.truthy : JsVal → Bool
  | JsVal.undefined => false
  | JsVal.null => false
  | JsVal.bool b => b
  | JsVal.str s => decide (s ≠ "")
  | JsVal.arr _ => true
  | JsVal.obj _ => true

/-- The operator `a || b`. -/
def jsOr (a b : JsVal) : JsVal := if a.truthy then a else b

/-- The values a `for ... of` loop runs over: the items of an array, the characters of a
string; the other values are not iterable. -/
def iterate : JsVal → Except JsVal (List JsVal)
  | JsVal.arr items => Except.ok items
  | JsVal.str s => Except.ok (s.data.map (fun c => JsVal.str (String.singleton c)))
  | _ => Except.error typeError

/-! ## Processes, traces and scripts -/

/-- What a run does that can be observed from outside, in order. -/
inductive Event where
  | getContractFactory (name : String)
  | deployProxy (factory args opts : JsVal)
  | upgradeProxy (proxy factory : JsVal)
  | getSigners
  | log (args : List JsVal)
  | error (args : List JsVal)
  | processExit (code : Nat)

/-- The runtime environment the framework hands to scripts and tasks: each helper reads and
changes the world (the chain, the records the framework keeps) and either returns a value
or throws one; `config` is the configuration the framework resolved. -/
structure Hre (σ : Type) where
  getContractFactory : String → σ → Except JsVal JsVal × σ
  deployProxy : JsVal → JsVal → JsVal → σ → Except JsVal JsVal × σ
  upgradeProxy : JsVal → JsVal → σ → Except JsVal JsVal × σ
  getSigners : σ → Except JsVal JsVal × σ
  config : JsVal

/-- A running process: the world it acts on and what it has done so far. -/
structure Proc (σ : Type) where
  world : σ
  trace : List Event

/-- An `async` computation: from a process state it returns or throws, and leaves a new
process state. -/
def Script (σ α : Type) : Type := Proc σ → Except JsVal α × Proc σ

/-- Return. -/
def Script.ret {σ α : Type} (a : α) : Script σ α := fun p => (Except.ok a, p)

/-- Sequencing (`await`): a throw skips the rest. -/
def Script.andThen {σ α β : Type} (m : Script σ α) (f : α → Script σ β) : Script σ β :=
  fun p =>
    match m p with
    | (Except.ok a, q) => f a q
    | (Except.error e, q) => (Except.error e, q)

instance (σ : Type) : Monad (Script σ) where
  pure := Script.ret
  bind := Script.andThen

/-- Lift a pure step that may throw. -/
def liftExcept {σ α : Type} (r : Except JsVal α) : Script σ α := fun p => (r, p)

/-- Record an event. -/
def emit {σ : Type} (e : Event) : Script σ Unit :=
  fun p => (Except.ok (), ⟨p.world, p.trace ++ [e]⟩)

/-- Call of a helper: the call is recorded, the helper acts on the world. -/
def callHelper {σ : Type} (e : Event) (h : σ → Except JsVal JsVal × σ) : Script σ JsVal :=
  fun p => ((h p.world).1, ⟨(h p.world).2, p.trace ++ [e]⟩)

/-- The call `ethers.getContractFactory(name)`. -/
def getContractFactory {σ : Type} (hre : Hre σ) (name : String) : Script σ JsVal :=
  callHelper (Event.getContractFactory name) (hre.getContractFactory name)

/-- The call `upgrades.deployProxy(factory, args, opts)`. -/
def deployProxy {σ : Type} (hre : Hre σ) (factory args opts : JsVal) : Script σ JsVal :=
  callHelper (Event.deployProxy factory args opts) (hre.deployProxy factory args opts)

/-- The call `upgrades.upgradeProxy(proxy, factory)`. -/
def upgradeProxy {σ : Type} (hre : Hre σ) (proxy factory : JsVal) : Script σ JsVal :=
  callHelper (Event.upgradeProxy proxy factory) (hre.upgradeProxy proxy factory)

/-- The call `ethers.getSigners()`. -/
def getSigners {σ : Type} (hre : Hre σ) : Script σ JsVal :=
  callHelper Event.getSigners hre.getSigners

/-- The call `console.log(...args)`: one line on standard output. -/
def consoleLog {σ : Type} (args : List JsVal) : Script σ Unit := emit (Event.log args)

/-- The call `console.error(...args)`: one line on standard error. -/
def consoleError {σ : Type} (args : List JsVal) : Script σ Unit := emit (Event.error args)

/-- The loop `for (const x of items) body`. -/
def forOf {σ : Type} (items : List JsVal) (body : JsVal → Script σ Unit) : Script σ Unit :=
  match items with
  | [] => pure ()
  | x :: rest => do
      body x
      forOf rest body

/-- The call `process.exit(code)`: the process ends here. -/
def processExit {σ : Type} (code : Nat) (p : Proc σ) : Proc σ :=
  ⟨p.world, p.trace ++ [Event.processExit code]⟩

/-- The top level of both scripts:
`main().then(() => process.exit(0)).catch(error => { console.error(error); process.exit(1) })`,
started in world `w` with an empty trace. -/
def thenExitCatch {σ : Type} (main : Script σ Unit) (w : σ) : Proc σ :=
  match main ⟨w, []⟩ with
  | (Except.ok _, p) => processExit 0 p
  | (Except.error error, p) => processExit 1 (consoleError [error] p).2

/-! ## scripts/deploy.js -/

namespace Deploy

/-- The options literal handed to `deployProxy`. -/
def opts : JsVal := JsVal.obj [("initializer", JsVal.str "initialize")]

/-- The function `main` of `scripts/deploy.js`. -/
def main {σ : Type} (hre : Hre σ) : Script σ Unit := do
  let BankingNode ← getContractFactory hre "BankingNode"
  consoleLog [JsVal.str "Deploying BankingNode, ProxyAdmin, and then Proxy..."]
  let proxy ← deployProxy hre BankingNode (JsVal.arr []) opts
  let address ← liftExcept (proxy.getProp "address")
  consoleLog [JsVal.str "Proxy of BankingNode deployed to:", address]

/-- A run of `scripts/deploy.js`. -/
def run {σ : Type} (hre : Hre σ) (w : σ) : Proc σ := thenExitCatch (main hre) w

end Deploy

/-! ## scripts/upgrada.js -/

namespace Upgrade

/-- The function `main` of `scripts/upgrada.js`. -/
def main {σ : Type} (hre : Hre σ) : Script σ Unit := do
  let BankingNodeV2 ← getContractFactory hre "BankingNodeV2"
  let bankingnodeV2 ← upgradeProxy hre (JsVal.str "-") BankingNodeV2
  let address ← liftExcept (bankingnodeV2.getProp "address")
  consoleLog [JsVal.str "the upgrade is done!", address]

/-- A run of `scripts/upgrada.js`. -/
def run {σ : Type} (hre : Hre σ) (w : σ) : Proc σ := thenExitCatch (main hre) w

end Upgrade

/-! ## hardhat.config.js -/

/-- The body of the task `accounts` ("Prints the list of accounts"). -/
def accountsTask {σ : Type} (hre : Hre σ) : Script σ Unit := do
  let accounts ← getSigners hre
  let items ← liftExcept (iterate accounts)
  forOf items (fun account => do
    let address ← liftExcept (account.getProp "address")
    consoleLog [address])

/-- The environment of the process: `process.env`, a variable is unset or a string. -/
abbrev Env : Type := String → Option String

/-- The read `process.env.NAME`. -/
def Env.read (env : Env) (name : String) : JsVal :=
  match env name with
  | none => JsVal.undefined
  | some v => JsVal.str v

/-- The constant `RINKEBY_RPC_URL` of `hardhat.config.js`. -/
def RINKEBY_RPC_URL (env : Env) : JsVal :=
  jsOr (env.read "RINKEBY_RPC_URL") (JsVal.str "https://rinkeby.infura.io/v3/")

/-- The constant `PRIVATE_KEY` of `hardhat.config.js`. -/
def PRIVATE_KEY (env : Env) : JsVal :=
  jsOr (env.read "PRIVATE_KEY") (JsVal.str "")

/-- The object assigned to `module.exports` in `hardhat.config.js`; the constant
`PRIVATE_KEY` is computed before it and used only in a commented-out line. -/
def moduleExports (env : Env) : JsVal :=
  let rinkebyRpcUrl := RINKEBY_RPC_URL env
  let _privateKey := PRIVATE_KEY env
  JsVal.obj [
    ("defaultNetwork", JsVal.str "rinkeby"),
    ("networks", JsVal.obj [
      ("hardhat", JsVal.obj []),
      ("local", JsVal.obj [
        ("url", JsVal.str "http://127.0.0.1:8545/")]),
      ("rinkeby", JsVal.obj [
        ("url", rinkebyRpcUrl),
        ("accounts", JsVal.obj [
          ("mnemonic", JsVal.str "")]),
        ("saveDeployments", JsVal.bool true)])]),
    ("solidity", JsVal.str "0.8.2")]

/-! ## Observations on values and traces -/

/-- Read along a path of property names; `undefined` where a step is not an object. -/
def JsVal.path : JsVal → List String → JsVal
  | v, [] => v
  | JsVal.obj props, name :: rest => JsVal.path (lookupProp props name) rest
  | _, _ :: _ => JsVal.undefined

/-- The keys of an object, in order of writing. -/
def JsVal.keys : JsVal → List String
  | JsVal.obj props => props.map Prod.fst
  | _ => []

/-- The url of the network `rinkeby` in a configuration object. -/
def rinkebyUrl (config : JsVal) : JsVal := config.path ["networks", "rinkeby", "url"]

/-- The lines written to standard output, oldest first. -/
def stdout : List Event → List (List JsVal)
  | [] => []
  | Event.log args :: rest => args :: stdout rest
  | _ :: rest => stdout rest

/-- The lines written to standard error, oldest first. -/
def stderr : List Event → List (List JsVal)
  | [] => []
  | Event.error args :: rest => args :: stderr rest
  | _ :: rest => stderr rest

/-- The exit codes the process ended with. -/
def exitCodes : List Event → List Nat
  | [] => []
  | Event.processExit code :: rest => code :: exitCodes rest
  | _ :: rest => exitCodes rest

/-- The names `getContractFactory` was called with. -/
def factoryCalls : List Event → List String
  | [] => []
  | Event.getContractFactory name :: rest => name :: factoryCalls rest
  | _ :: rest => factoryCalls rest

/-- The arguments `deployProxy` was called with. -/
def deployCalls : List Event → List (JsVal × JsVal × JsVal)
  | [] => []
  | Event.deployProxy f a o :: rest => (f, a, o) :: deployCalls rest
  | _ :: rest => deployCalls rest

/-- The arguments `upgradeProxy` was called with. -/
def upgradeCalls : List Event → List (JsVal × JsVal)
  | [] => []
  | Event.upgradeProxy a f :: rest => (a, f) :: upgradeCalls rest
  | _ :: rest => upgradeCalls rest

/-- Hexadecimal digit. -/
def isHexDigit (c : Char) : Bool :=
  ('0' ≤ c && c ≤ '9') || ('a' ≤ c && c ≤ 'f') || ('A' ≤ c && c ≤ 'F')

/-- The on-chain address format of the specification: the string "0x" followed by 40
hexadecimal digits. -/
def isAddress : JsVal → Bool
  | JsVal.str s =>
    match s.data with
    | '0' :: 'x' :: digits => digits.length == 40 && digits.all isHexDigit
    | _ => false
  | _ => false

/-! ## What the external framework does with addresses -/

/-- Modelled from the spec: the address check of the external helper `upgradeProxy`, whose
code is not part of the repository. Given a string that is not an on-chain address as the
proxy to upgrade, the helper throws, whatever the factory and the world (the spec: the
placeholder "will fail at runtime"). -/
def rejectsInvalidProxyAddress {σ : Type} (hre : Hre σ) : Prop :=
  ∀ (s : String) (f : JsVal) (w1 : σ), isAddress (JsVal.str s) = false →
    ∃ e w2, hre.upgradeProxy (JsVal.str s) f w1 = (Except.error e, w2)

/-- Modelled from the spec: the result of the external helper `deployProxy`, whose code is
not part of the repository. Whenever the helper returns, it returns the deployed proxy, a
value whose `address` property reads as an on-chain address. -/
def returnsDeployedAddress {σ : Type} (hre : Hre σ) : Prop :=
  ∀ (f args opts : JsVal) (w1 : σ) (p : JsVal) (w2 : σ),
    hre.deployProxy f args opts w1 = (Except.ok p, w2) →
    ∃ addr, p.getProp "address" = Except.ok addr ∧ isAddress addr = true

/-! ## Stand-ins for the external framework, for concrete runs -/

/-- A chain for concrete runs: whether the node answers, and the proxies deployed so far. -/
structure Chain where
  online : Bool
  proxies : List String

/-- A framework that checks what it is given: a factory exists for the listed artifacts
only, a deployment needs the node to answer and yields a fresh proxy address, and an upgrade
is refused unless the address is well formed and that of a deployed proxy. -/
def checkingHre (artifacts : List String) : Hre Chain where
  getContractFactory name c :=
    if artifacts.contains name then (Except.ok (JsVal.obj [("contractName", JsVal.str name)]), c)
    else (Except.error (JsVal.obj [("message", JsVal.str "artifact not found")]), c)
  deployProxy _ _ _ c :=
    if c.online then
      (Except.ok (JsVal.obj [("address", JsVal.str "0x5FbDB2315678afecb367f032d93F642f64180aa3")]),
        ⟨c.online, "0x5FbDB2315678afecb367f032d93F642f64180aa3" :: c.proxies⟩)
    else (Except.error (JsVal.obj [("message", JsVal.str "network unreachable")]), c)
  upgradeProxy proxy _ c :=
    match proxy with
    | JsVal.str a =>
      if isAddress proxy && c.proxies.contains a then
        (Except.ok (JsVal.obj [("address", proxy)]), c)
      else (Except.error (JsVal.obj [("message", JsVal.str "invalid address")]), c)
    | _ => (Except.error (JsVal.obj [("message", JsVal.str "invalid address")]), c)
  getSigners c :=
    (Except.ok (JsVal.arr [
      JsVal.obj [("address", JsVal.str "0xf39Fd6e51aad88F6F4ce6aB8827279cffFb92266")],
      JsVal.obj [("address", JsVal.str "0x70997970C51812dc3A010C7d01b50e0d17dc79C8")]]), c)
  config := moduleExports (fun _ => none)

/-- An environment that sets `RINKEBY_RPC_URL` and `PRIVATE_KEY`. -/
def sampleEnv : Env := fun name =>
  if name = "RINKEBY_RPC_URL" then some "https://rinkeby.example.org/rpc"
  else if name = "PRIVATE_KEY" then some "0xabc123"
  else none

/-- An environment that sets nothing. -/
def emptyEnv : Env := fun _ => none

/-! ## The runs of the scripts, case by case -/

/-- The four ways a run of the deploy script can go: `getContractFactory` throws,
`deployProxy` throws, the read of `.address` throws, or every step returns. Each case gives
the result of `main` and the whole run. -/
theorem deploy_run_cases {σ : Type} (hre : Hre σ) (w : σ) :
    (∃ e w1, hre.getContractFactory "BankingNode" w = (Except.error e, w1) ∧
      (Deploy.main hre ⟨w, []⟩).1 = Except.error e ∧
      Deploy.run hre w = ⟨w1, [Event.getContractFactory "BankingNode",
        Event.error [e], Event.processExit 1]⟩) ∨
    (∃ f w1 e w2, hre.getContractFactory "BankingNode" w = (Except.ok f, w1) ∧
      hre.deployProxy f (JsVal.arr []) Deploy.opts w1 = (Except.error e, w2) ∧
      (Deploy.main hre ⟨w, []⟩).1 = Except.error e ∧
      Deploy.run hre w = ⟨w2, [Event.getContractFactory "BankingNode",
        Event.log [JsVal.str "Deploying BankingNode, ProxyAdmin, and then Proxy..."],
        Event.deployProxy f (JsVal.arr []) Deploy.opts,
        Event.error [e], Event.processExit 1]⟩) ∨
    (∃ f w1 p w2 e, hre.getContractFactory "BankingNode" w = (Except.ok f, w1) ∧
      hre.deployProxy f (JsVal.arr []) Deploy.opts w1 = (Except.ok p, w2) ∧
      p.getProp "address" = Except.error e ∧
      (Deploy.main hre ⟨w, []⟩).1 = Except.error e ∧
      Deploy.run hre w = ⟨w2, [Event.getContractFactory "BankingNode",
        Event.log [JsVal.str "Deploying BankingNode, ProxyAdmin, and then Proxy..."],
        Event.deployProxy f (JsVal.arr []) Deploy.opts,
        Event.error [e], Event.processExit 1]⟩) ∨
    (∃ f w1 p w2 a, hre.getContractFactory "BankingNode" w = (Except.ok f, w1) ∧
      hre.deployProxy f (JsVal.arr []) Deploy.opts w1 = (Except.ok p, w2) ∧
      p.getProp "address" = Except.ok a ∧
      (Deploy.main hre ⟨w, []⟩).1 = Except.ok () ∧
      Deploy.run hre w = ⟨w2, [Event.getContractFactory "BankingNode",
        Event.log [JsVal.str "Deploying BankingNode, ProxyAdmin, and then Proxy..."],
        Event.deployProxy f (JsVal.arr []) Deploy.opts,
        Event.log [JsVal.str "Proxy of BankingNode deployed to:", a],
        Event.processExit 0]⟩) := by
  rcases h1 : hre.getContractFactory "BankingNode" w with ⟨r1, w1⟩
  cases r1 with
  | error e =>
    refine Or.inl ⟨e, w1, rfl, ?_, ?_⟩ <;>
      simp [Deploy.run, thenExitCatch, Deploy.main, bind, Script.andThen, getContractFactory,
        callHelper, processExit, consoleError, emit, h1]
  | ok f =>
    rcases h2 : hre.deployProxy f (JsVal.arr []) Deploy.opts w1 with ⟨r2, w2⟩
    cases r2 with
    | error e =>
      refine Or.inr (Or.inl ⟨f, w1, e, w2, rfl, h2, ?_, ?_⟩) <;>
        simp [Deploy.run, thenExitCatch, Deploy.main, bind, Script.andThen,
          getContractFactory, deployProxy, callHelper, processExit, consoleError, consoleLog,
          emit, h1, h2]
    | ok p =>
      cases h3 : p.getProp "address" with
      | error e =>
        refine Or.inr (Or.inr (Or.inl ⟨f, w1, p, w2, e, rfl, h2, h3, ?_, ?_⟩)) <;>
          simp [Deploy.run, thenExitCatch, Deploy.main, bind, Script.andThen,
            getContractFactory, deployProxy, callHelper, processExit, consoleError,
            consoleLog, emit, liftExcept, h1, h2, h3]
      | ok a =>
        refine Or.inr (Or.inr (Or.inr ⟨f, w1, p, w2, a, rfl, h2, h3, ?_, ?_⟩)) <;>
          simp [Deploy.run, thenExitCatch, Deploy.main, bind, Script.andThen,
            getContractFactory, deployProxy, callHelper, processExit, consoleError,
            consoleLog, emit, liftExcept, h1, h2, h3]

/-- The four ways a run of the upgrade script can go: `getContractFactory` throws,
`upgradeProxy` throws, the read of `.address` throws, or every step returns. Each case gives
the result of `main` and the whole run. -/
theorem upgrade_run_cases {σ : Type} (hre : Hre σ) (w : σ) :
    (∃ e w1, hre.getContractFactory "BankingNodeV2" w = (Except.error e, w1) ∧
      (Upgrade.main hre ⟨w, []⟩).1 = Except.error e ∧
      Upgrade.run hre w = ⟨w1, [Event.getContractFactory "BankingNodeV2",
        Event.error [e], Event.processExit 1]⟩) ∨
    (∃ f w1 e w2, hre.getContractFactory "BankingNodeV2" w = (Except.ok f, w1) ∧
      hre.upgradeProxy (JsVal.str "-") f w1 = (Except.error e, w2) ∧
      (Upgrade.main hre ⟨w, []⟩).1 = Except.error e ∧
      Upgrade.run hre w = ⟨w2, [Event.getContractFactory "BankingNodeV2",
        Event.upgradeProxy (JsVal.str "-") f,
        Event.error [e], Event.processExit 1]⟩) ∨
    (∃ f w1 p w2 e, hre.getContractFactory "BankingNodeV2" w = (Except.ok f, w1) ∧
      hre.upgradeProxy (JsVal.str "-") f w1 = (Except.ok p, w2) ∧
      p.getProp "address" = Except.error e ∧
      (Upgrade.main hre ⟨w, []⟩).1 = Except.error e ∧
      Upgrade.run hre w = ⟨w2, [Event.getContractFactory "BankingNodeV2",
        Event.upgradeProxy (JsVal.str "-") f,
        Event.error [e], Event.processExit 1]⟩) ∨
    (∃ f w1 p w2 a, hre.getContractFactory "BankingNodeV2" w = (Except.ok f, w1) ∧
      hre.upgradeProxy (JsVal.str "-") f w1 = (Except.ok p, w2) ∧
      p.getProp "address" = Except.ok a ∧
      (Upgrade.main hre ⟨w, []⟩).1 = Except.ok () ∧
      Upgrade.run hre w = ⟨w2, [Event.getContractFactory "BankingNodeV2",
        Event.upgradeProxy (JsVal.str "-") f,
        Event.log [JsVal.str "the upgrade is done!", a],
        Event.processExit 0]⟩) := by
  rcases h1 : hre.getContractFactory "BankingNodeV2" w with ⟨r1, w1⟩
  cases r1 with
  | error e =>
    refine Or.inl ⟨e, w1, rfl, ?_, ?_⟩ <;>
      simp [Upgrade.run, thenExitCatch, Upgrade.main, bind, Script.andThen,
        getContractFactory, callHelper, processExit, consoleError, emit, h1]
  | ok f =>
    rcases h2 : hre.upgradeProxy (JsVal.str "-") f w1 with ⟨r2, w2⟩
    cases r2 with
    | error e =>
      refine Or.inr (Or.inl ⟨f, w1, e, w2, rfl, h2, ?_, ?_⟩) <;>
        simp [Upgrade.run, thenExitCatch, Upgrade.main, bind, Script.andThen,
          getContractFactory, upgradeProxy, callHelper, processExit, consoleError,
          consoleLog, emit, h1, h2]
    | ok p =>
      cases h3 : p.getProp "address" with
      | error e =>
        refine Or.inr (Or.inr (Or.inl ⟨f, w1, p, w2, e, rfl, h2, h3, ?_, ?_⟩)) <;>
          simp [Upgrade.run, thenExitCatch, Upgrade.main, bind, Script.andThen,
            getContractFactory, upgradeProxy, callHelper, processExit, consoleError,
            consoleLog, emit, liftExcept, h1, h2, h3]
      | ok a =>
        refine Or.inr (Or.inr (Or.inr ⟨f, w1, p, w2, a, rfl, h2, h3, ?_, ?_⟩)) <;>
          simp [Upgrade.run, thenExitCatch, Upgrade.main, bind, Script.andThen,
            getContractFactory, upgradeProxy, callHelper, processExit, consoleError,
            consoleLog, emit, liftExcept, h1, h2, h3]

/-! ## Exit codes -/

/-- C1: for the deploy script and for the upgrade script, whatever the helpers do, the exit
code is 0 exactly when `main` returns, which is exactly when every step (the two helper
calls and the read of `.address`) returns; it is 1 exactly when `main` throws; the value
thrown is the one line written to standard error, nothing is written there when `main`
returns, and the exit code is never anything but 0 or 1. -/
theorem exit_code_zero_iff_no_throw {σ : Type} (hre : Hre σ) (w : σ) :
    ((exitCodes (Deploy.run hre w).trace = [0] ↔ (Deploy.main hre ⟨w, []⟩).1 = Except.ok ()) ∧
     (exitCodes (Deploy.run hre w).trace = [1] ↔
        ∃ e, (Deploy.main hre ⟨w, []⟩).1 = Except.error e) ∧
     (∀ e, (Deploy.main hre ⟨w, []⟩).1 = Except.error e →
        stderr (Deploy.run hre w).trace = [[e]]) ∧
     ((Deploy.main hre ⟨w, []⟩).1 = Except.ok () → stderr (Deploy.run hre w).trace = []) ∧
     (exitCodes (Deploy.run hre w).trace = [0] ∨ exitCodes (Deploy.run hre w).trace = [1]) ∧
     ((Deploy.main hre ⟨w, []⟩).1 = Except.ok () ↔
        ∃ f w1 p w2 a, hre.getContractFactory "BankingNode" w = (Except.ok f, w1) ∧
          hre.deployProxy f (JsVal.arr []) Deploy.opts w1 = (Except.ok p, w2) ∧
          p.getProp "address" = Except.ok a)) ∧
    ((exitCodes (Upgrade.run hre w).trace = [0] ↔ (Upgrade.main hre ⟨w, []⟩).1 = Except.ok ()) ∧
     (exitCodes (Upgrade.run hre w).trace = [1] ↔
        ∃ e, (Upgrade.main hre ⟨w, []⟩).1 = Except.error e) ∧
     (∀ e, (Upgrade.main hre ⟨w, []⟩).1 = Except.error e →
        stderr (Upgrade.run hre w).trace = [[e]]) ∧
     ((Upgrade.main hre ⟨w, []⟩).1 = Except.ok () → stderr (Upgrade.run hre w).trace = []) ∧
     (exitCodes (Upgrade.run hre w).trace = [0] ∨ exitCodes (Upgrade.run hre w).trace = [1]) ∧
     ((Upgrade.main hre ⟨w, []⟩).1 = Except.ok () ↔
        ∃ f w1 p w2 a, hre.getContractFactory "BankingNodeV2" w = (Except.ok f, w1) ∧
          hre.upgradeProxy (JsVal.str "-") f w1 = (Except.ok p, w2) ∧
          p.getProp "address" = Except.ok a)) := by
  constructor
  · rcases deploy_run_cases hre w with ⟨e, w1, h1, hm, hr⟩ | ⟨f, w1, e, w2, h1, h2, hm, hr⟩ |
      ⟨f, w1, p, w2, e, h1, h2, h3, hm, hr⟩ | ⟨f, w1, p, w2, a, h1, h2, h3, hm, hr⟩
    · simp [hm, hr, h1, exitCodes, stderr]
    · simp [hm, hr, h1, h2, exitCodes, stderr]
    · simp [hm, hr, h1, h2, h3, exitCodes, stderr]
    · simp [hm, hr, h1, h2, h3, exitCodes, stderr]
      exact ⟨f, w1, ⟨rfl, rfl⟩, p, ⟨w2, h2⟩, a, h3⟩
  · rcases upgrade_run_cases hre w with ⟨e, w1, h1, hm, hr⟩ | ⟨f, w1, e, w2, h1, h2, hm, hr⟩ |
      ⟨f, w1, p, w2, e, h1, h2, h3, hm, hr⟩ | ⟨f, w1, p, w2, a, h1, h2, h3, hm, hr⟩
    · simp [hm, hr, h1, exitCodes, stderr]
    · simp [hm, hr, h1, h2, exitCodes, stderr]
    · simp [hm, hr, h1, h2, h3, exitCodes, stderr]
    · simp [hm, hr, h1, h2, h3, exitCodes, stderr]
      exact ⟨f, w1, ⟨rfl, rfl⟩, p, ⟨w2, h2⟩, a, h3⟩

/-- Witness for C1: with the node offline the deploy run throws in `deployProxy`, exits
with 1 and has the error of the helper on standard error. -/
theorem exit_code_zero_iff_no_throw_witness :
    (Deploy.main (checkingHre ["BankingNode"]) ⟨⟨false, []⟩, []⟩).1 =
        Except.error (JsVal.obj [("message", JsVal.str "network unreachable")]) ∧
      stderr (Deploy.run (checkingHre ["BankingNode"]) ⟨false, []⟩).trace =
        [[JsVal.obj [("message", JsVal.str "network unreachable")]]] :=
  ⟨rfl, (exit_code_zero_iff_no_throw (checkingHre ["BankingNode"]) ⟨false, []⟩).1.2.2.1 _ rfl⟩

/-! ## The placeholder proxy address of the upgrade script -/

/-- The checking framework refuses every string that is not an on-chain address. -/
theorem checkingHre_rejects (artifacts : List String) :
    rejectsInvalidProxyAddress (checkingHre artifacts) := by
  intro s f w1 hs
  refine ⟨JsVal.obj [("message", JsVal.str "invalid address")], w1, ?_⟩
  simp [checkingHre, hs]

/-- C2: with a framework whose `upgradeProxy` throws on a string that is not an on-chain
address, every run of the upgrade script fails fast. The placeholder "-" is no on-chain
address and is the proxy address of every `upgradeProxy` call of the run; the exit code is
1 and nothing is written to standard output, so "the upgrade is done!" is never reported.
When the factory is obtained, "-" is handed to `upgradeProxy` with it, once, the helper
throws, and what follows that call is the line on standard error with the value the helper
threw and the exit, nothing else; when `getContractFactory` throws, its error is the line on
standard error and `upgradeProxy` is not reached. -/
theorem upgrade_fails_fast_on_placeholder {σ : Type} (hre : Hre σ) (w : σ)
    (hrej : rejectsInvalidProxyAddress hre) :
    isAddress (JsVal.str "-") = false ∧
    (∀ c ∈ upgradeCalls (Upgrade.run hre w).trace, c.1 = JsVal.str "-") ∧
    exitCodes (Upgrade.run hre w).trace = [1] ∧
    stdout (Upgrade.run hre w).trace = [] ∧
    (∀ line ∈ stdout (Upgrade.run hre w).trace,
      line.head? ≠ some (JsVal.str "the upgrade is done!")) ∧
    (∀ f w1, hre.getContractFactory "BankingNodeV2" w = (Except.ok f, w1) →
      ∃ e w2, hre.upgradeProxy (JsVal.str "-") f w1 = (Except.error e, w2) ∧
        upgradeCalls (Upgrade.run hre w).trace = [(JsVal.str "-", f)] ∧
        stderr (Upgrade.run hre w).trace = [[e]] ∧
        (Upgrade.run hre w).trace = [Event.getContractFactory "BankingNodeV2",
          Event.upgradeProxy (JsVal.str "-") f, Event.error [e], Event.processExit 1]) ∧
    (∀ e w1, hre.getContractFactory "BankingNodeV2" w = (Except.error e, w1) →
      upgradeCalls (Upgrade.run hre w).trace = [] ∧
      stderr (Upgrade.run hre w).trace = [[e]]) := by
  have hdash : isAddress (JsVal.str "-") = false := rfl
  rcases upgrade_run_cases hre w with ⟨e, w1, h1, hm, hr⟩ | ⟨f, w1, e, w2, h1, h2, hm, hr⟩ |
    ⟨f, w1, p, w2, e, h1, h2, h3, hm, hr⟩ | ⟨f, w1, p, w2, a, h1, h2, h3, hm, hr⟩
  · rw [hr]
    refine ⟨hdash, by simp [upgradeCalls], rfl, rfl, by simp [stdout], ?_, ?_⟩
    · intro f1 v1 hf
      rw [h1] at hf
      cases hf
    · intro e1 v1 hf
      rw [h1] at hf
      cases hf
      exact ⟨rfl, rfl⟩
  · rw [hr]
    refine ⟨hdash, by simp [upgradeCalls], rfl, rfl, by simp [stdout], ?_, ?_⟩
    · intro f1 v1 hf
      rw [h1] at hf
      cases hf
      exact ⟨e, w2, h2, rfl, rfl, rfl⟩
    · intro e1 v1 hf
      rw [h1] at hf
      cases hf
  · obtain ⟨e1, v2, he⟩ := hrej "-" f w1 hdash
    rw [h2] at he
    cases he
  · obtain ⟨e1, v2, he⟩ := hrej "-" f w1 hdash
    rw [h2] at he
    cases he

/-- Witness for C2: the checking framework refuses "-", so the upgrade run hands "-" to
`upgradeProxy` once, exits with 1 with the error of the helper on standard error and
prints nothing to standard output. -/
theorem upgrade_fails_fast_on_placeholder_witness :
    rejectsInvalidProxyAddress (checkingHre ["BankingNodeV2"]) ∧
      exitCodes (Upgrade.run (checkingHre ["BankingNodeV2"]) ⟨true, []⟩).trace = [1] ∧
      stdout (Upgrade.run (checkingHre ["BankingNodeV2"]) ⟨true, []⟩).trace = [] ∧
      upgradeCalls (Upgrade.run (checkingHre ["BankingNodeV2"]) ⟨true, []⟩).trace =
        [(JsVal.str "-", JsVal.obj [("contractName", JsVal.str "BankingNodeV2")])] ∧
      stderr (Upgrade.run (checkingHre ["BankingNodeV2"]) ⟨true, []⟩).trace =
        [[JsVal.obj [("message", JsVal.str "invalid address")]]] :=
  ⟨checkingHre_rejects ["BankingNodeV2"],
   (upgrade_fails_fast_on_placeholder (checkingHre ["BankingNodeV2"]) ⟨true, []⟩
      (checkingHre_rejects ["BankingNodeV2"])).2.2.1,
   (upgrade_fails_fast_on_placeholder (checkingHre ["BankingNodeV2"]) ⟨true, []⟩
      (checkingHre_rejects ["BankingNodeV2"])).2.2.2.1,
   rfl, rfl⟩

/-! ## What the deploy script prints on success -/

/-- The checking framework returns a proxy at an on-chain address whenever its `deployProxy`
returns. -/
theorem checkingHre_returns_address (artifacts : List String) :
    returnsDeployedAddress (checkingHre artifacts) := by
  intro f args opts w1 p w2 h
  cases hon : w1.online with
  | false => simp [checkingHre, hon] at h
  | true =>
    simp [checkingHre, hon] at h
    refine ⟨JsVal.str "0x5FbDB2315678afecb367f032d93F642f64180aa3", ?_, rfl⟩
    rw [← h.1]
    rfl

/-- C4: with a framework whose `deployProxy` returns a proxy at an on-chain address, in
every run of the deploy script that ends with exit code 0 both helpers returned, and the
last line written to standard output is "Proxy of BankingNode deployed to:" followed by
the `address` property of the proxy `deployProxy` returned, which has the on-chain address
format: "0x" followed by 40 hexadecimal digits. -/
theorem deploy_success_prints_valid_address {σ : Type} (hre : Hre σ) (w : σ)
    (hdep : returnsDeployedAddress hre)
    (h : exitCodes (Deploy.run hre w).trace = [0]) :
    ∃ f w1 p w2 addr, hre.getContractFactory "BankingNode" w = (Except.ok f, w1) ∧
      hre.deployProxy f (JsVal.arr []) Deploy.opts w1 = (Except.ok p, w2) ∧
      p.getProp "address" = Except.ok addr ∧
      (stdout (Deploy.run hre w).trace).getLast? =
        some [JsVal.str "Proxy of BankingNode deployed to:", addr] ∧
      isAddress addr = true := by
  rcases deploy_run_cases hre w with ⟨e, w1, h1, hm, hr⟩ | ⟨f, w1, e, w2, h1, h2, hm, hr⟩ |
    ⟨f, w1, p, w2, e, h1, h2, h3, hm, hr⟩ | ⟨f, w1, p, w2, a, h1, h2, h3, hm, hr⟩
  · simp [hr, exitCodes] at h
  · simp [hr, exitCodes] at h
  · simp [hr, exitCodes] at h
  · obtain ⟨addr, ha, hvalid⟩ := hdep f (JsVal.arr []) Deploy.opts w1 p w2 h2
    rw [h3] at ha
    cases ha
    refine ⟨f, w1, p, w2, a, h1, h2, h3, ?_, hvalid⟩
    simp [hr, stdout]

/-- Witness for C4: a deployment with the checking framework and the node online exits with
0, and its last line on standard output carries the address of the deployed proxy. -/
theorem deploy_success_prints_valid_address_witness :
    returnsDeployedAddress (checkingHre ["BankingNode"]) ∧
      exitCodes (Deploy.run (checkingHre ["BankingNode"]) ⟨true, []⟩).trace = [0] ∧
      (stdout (Deploy.run (checkingHre ["BankingNode"]) ⟨true, []⟩).trace).getLast? =
        some [JsVal.str "Proxy of BankingNode deployed to:",
          JsVal.str "0x5FbDB2315678afecb367f032d93F642f64180aa3"] ∧
      isAddress (JsVal.str "0x5FbDB2315678afecb367f032d93F642f64180aa3") = true ∧
      ∃ f w1 p w2 addr,
        (checkingHre ["BankingNode"]).getContractFactory "BankingNode" ⟨true, []⟩ =
          (Except.ok f, w1) ∧
        (checkingHre ["BankingNode"]).deployProxy f (JsVal.arr []) Deploy.opts w1 =
          (Except.ok p, w2) ∧
        p.getProp "address" = Except.ok addr ∧
        (stdout (Deploy.run (checkingHre ["BankingNode"]) ⟨true, []⟩).trace).getLast? =
          some [JsVal.str "Proxy of BankingNode deployed to:", addr] ∧
        isAddress addr = true :=
  ⟨checkingHre_returns_address ["BankingNode"], rfl, rfl, rfl,
   deploy_success_prints_valid_address (checkingHre ["BankingNode"]) ⟨true, []⟩
     (checkingHre_returns_address ["BankingNode"]) rfl⟩

/-! ## The arguments of the helper calls -/

/-- Every call of `upgradeProxy` in a run of the upgrade script has the placeholder "-" as
its first argument and the factory `getContractFactory` returned as its second. -/
theorem upgrade_calls_placeholder {σ : Type} (hre : Hre σ) (w : σ) :
    ∀ c ∈ upgradeCalls (Upgrade.run hre w).trace,
      c.1 = JsVal.str "-" ∧
        ∃ w1, hre.getContractFactory "BankingNodeV2" w = (Except.ok c.2, w1) := by
  rcases upgrade_run_cases hre w with ⟨e, w1, h1, hm, hr⟩ | ⟨f, w1, e, w2, h1, h2, hm, hr⟩ |
    ⟨f, w1, p, w2, e, h1, h2, h3, hm, hr⟩ | ⟨f, w1, p, w2, a, h1, h2, h3, hm, hr⟩
  · simp [hr, upgradeCalls]
  · simp [hr, upgradeCalls, h1]
  · simp [hr, upgradeCalls, h1]
  · simp [hr, upgradeCalls, h1]

/-- C5: whatever the helpers, the configuration and the world are (in particular in the
world a previous deploy run left behind, and with the configuration exported under any
environment), every call of `upgradeProxy` the upgrade script makes has the literal "-" as
first argument and the factory obtained for "BankingNodeV2" as second; when that factory
is obtained, this is the one call made. -/
theorem upgrade_passes_placeholder {σ : Type} (hre : Hre σ) (w : σ) :
    (∀ c ∈ upgradeCalls (Upgrade.run hre w).trace,
      c.1 = JsVal.str "-" ∧
        ∃ w1, hre.getContractFactory "BankingNodeV2" w = (Except.ok c.2, w1)) ∧
    (∀ f w1, hre.getContractFactory "BankingNodeV2" w = (Except.ok f, w1) →
      upgradeCalls (Upgrade.run hre w).trace = [(JsVal.str "-", f)] ∧
      factoryCalls (Upgrade.run hre w).trace = ["BankingNodeV2"]) ∧
    (∀ (env : Env) (hreD : Hre σ) (w0 : σ),
      ∀ c ∈ upgradeCalls (Upgrade.run
          ⟨hre.getContractFactory, hre.deployProxy, hre.upgradeProxy, hre.getSigners,
            moduleExports env⟩ (Deploy.run hreD w0).world).trace,
        c.1 = JsVal.str "-") := by
  refine ⟨upgrade_calls_placeholder hre w, ?_, ?_⟩
  · intro f w1 hf
    rcases upgrade_run_cases hre w with ⟨e, w1, h1, hm, hr⟩ | ⟨f, w1, e, w2, h1, h2, hm, hr⟩ |
      ⟨f, w1, p, w2, e, h1, h2, h3, hm, hr⟩ | ⟨f, w1, p, w2, a, h1, h2, h3, hm, hr⟩
    · rw [h1] at hf; cases hf
    · rw [h1] at hf; cases hf; simp [hr, upgradeCalls, factoryCalls]
    · rw [h1] at hf; cases hf; simp [hr, upgradeCalls, factoryCalls]
    · rw [h1] at hf; cases hf; simp [hr, upgradeCalls, factoryCalls]
  · intro env hreD w0 c hc
    exact (upgrade_calls_placeholder _ _ c hc).1

/-- Witness for C5: after a deployment that put a proxy at an address of its own, the
upgrade run still calls `upgradeProxy` with "-". -/
theorem upgrade_passes_placeholder_witness :
    (Deploy.run (checkingHre ["BankingNode", "BankingNodeV2"]) ⟨true, []⟩).world.proxies =
        ["0x5FbDB2315678afecb367f032d93F642f64180aa3"] ∧
      upgradeCalls (Upgrade.run (checkingHre ["BankingNode", "BankingNodeV2"])
          (Deploy.run (checkingHre ["BankingNode", "BankingNodeV2"]) ⟨true, []⟩).world).trace =
        [(JsVal.str "-", JsVal.obj [("contractName", JsVal.str "BankingNodeV2")])] ∧
      factoryCalls (Upgrade.run (checkingHre ["BankingNode", "BankingNodeV2"])
          (Deploy.run (checkingHre ["BankingNode", "BankingNodeV2"]) ⟨true, []⟩).world).trace =
        ["BankingNodeV2"] :=
  ⟨rfl, (upgrade_passes_placeholder (checkingHre ["BankingNode", "BankingNodeV2"])
    (Deploy.run (checkingHre ["BankingNode", "BankingNodeV2"]) ⟨true, []⟩).world).2.1 _ _ rfl⟩

/-! ## Linearity of the scripts -/

/-- C7: in every run of the deploy script `getContractFactory` is called exactly once (with
"BankingNode"), `deployProxy` at most once and `upgradeProxy` never; in every run of the
upgrade script `getContractFactory` is called exactly once (with "BankingNodeV2"),
`upgradeProxy` at most once and `deployProxy` never. When `getContractFactory` throws, the
proxy helper is not called, and when a helper throws, what follows its call in the trace is
the error line and the exit with code 1, nothing else: no further helper call, no further
line on standard output. -/
theorem scripts_linear_no_retry {σ : Type} (hre : Hre σ) (w : σ) :
    (factoryCalls (Deploy.run hre w).trace = ["BankingNode"] ∧
     (deployCalls (Deploy.run hre w).trace).length ≤ 1 ∧
     upgradeCalls (Deploy.run hre w).trace = [] ∧
     (∀ e w1, hre.getContractFactory "BankingNode" w = (Except.error e, w1) →
        deployCalls (Deploy.run hre w).trace = [] ∧
        (Deploy.run hre w).trace = [Event.getContractFactory "BankingNode",
          Event.error [e], Event.processExit 1]) ∧
     (∀ f w1 e w2, hre.getContractFactory "BankingNode" w = (Except.ok f, w1) →
        hre.deployProxy f (JsVal.arr []) Deploy.opts w1 = (Except.error e, w2) →
        (Deploy.run hre w).trace = [Event.getContractFactory "BankingNode",
          Event.log [JsVal.str "Deploying BankingNode, ProxyAdmin, and then Proxy..."],
          Event.deployProxy f (JsVal.arr []) Deploy.opts,
          Event.error [e], Event.processExit 1])) ∧
    (factoryCalls (Upgrade.run hre w).trace = ["BankingNodeV2"] ∧
     (upgradeCalls (Upgrade.run hre w).trace).length ≤ 1 ∧
     deployCalls (Upgrade.run hre w).trace = [] ∧
     (∀ e w1, hre.getContractFactory "BankingNodeV2" w = (Except.error e, w1) →
        upgradeCalls (Upgrade.run hre w).trace = [] ∧
        (Upgrade.run hre w).trace = [Event.getContractFactory "BankingNodeV2",
          Event.error [e], Event.processExit 1]) ∧
     (∀ f w1 e w2, hre.getContractFactory "BankingNodeV2" w = (Except.ok f, w1) →
        hre.upgradeProxy (JsVal.str "-") f w1 = (Except.error e, w2) →
        (Upgrade.run hre w).trace = [Event.getContractFactory "BankingNodeV2",
          Event.upgradeProxy (JsVal.str "-") f,
          Event.error [e], Event.processExit 1])) := by
  constructor
  · rcases deploy_run_cases hre w with ⟨e, w1, h1, hm, hr⟩ | ⟨f, w1, e, w2, h1, h2, hm, hr⟩ |
      ⟨f, w1, p, w2, e, h1, h2, h3, hm, hr⟩ | ⟨f, w1, p, w2, a, h1, h2, h3, hm, hr⟩
    · rw [hr]
      refine ⟨rfl, by simp [deployCalls], rfl, ?_, ?_⟩
      · intro e1 v1 hf
        rw [h1] at hf
        cases hf
        exact ⟨rfl, rfl⟩
      · intro f1 v1 e1 v2 hf
        rw [h1] at hf
        cases hf
    · rw [hr]
      refine ⟨rfl, by simp [deployCalls], rfl, ?_, ?_⟩
      · intro e1 v1 hf
        rw [h1] at hf
        cases hf
      · intro f1 v1 e1 v2 hf hd
        rw [h1] at hf
        cases hf
        rw [h2] at hd
        cases hd
        rfl
    · rw [hr]
      refine ⟨rfl, by simp [deployCalls], rfl, ?_, ?_⟩
      · intro e1 v1 hf
        rw [h1] at hf
        cases hf
      · intro f1 v1 e1 v2 hf hd
        rw [h1] at hf
        cases hf
        rw [h2] at hd
        cases hd
    · rw [hr]
      refine ⟨rfl, by simp [deployCalls], rfl, ?_, ?_⟩
      · intro e1 v1 hf
        rw [h1] at hf
        cases hf
      · intro f1 v1 e1 v2 hf hd
        rw [h1] at hf
        cases hf
        rw [h2] at hd
        cases hd
  · rcases upgrade_run_cases hre w with ⟨e, w1, h1, hm, hr⟩ | ⟨f, w1, e, w2, h1, h2, hm, hr⟩ |
      ⟨f, w1, p, w2, e, h1, h2, h3, hm, hr⟩ | ⟨f, w1, p, w2, a, h1, h2, h3, hm, hr⟩
    · rw [hr]
      refine ⟨rfl, by simp [upgradeCalls], rfl, ?_, ?_⟩
      · intro e1 v1 hf
        rw [h1] at hf
        cases hf
        exact ⟨rfl, rfl⟩
      · intro f1 v1 e1 v2 hf
        rw [h1] at hf
        cases hf
    · rw [hr]
      refine ⟨rfl, by simp [upgradeCalls], rfl, ?_, ?_⟩
      · intro e1 v1 hf
        rw [h1] at hf
        cases hf
      · intro f1 v1 e1 v2 hf hd
        rw [h1] at hf
        cases hf
        rw [h2] at hd
        cases hd
        rfl
    · rw [hr]
      refine ⟨rfl, by simp [upgradeCalls], rfl, ?_, ?_⟩
      · intro e1 v1 hf
        rw [h1] at hf
        cases hf
      · intro f1 v1 e1 v2 hf hd
        rw [h1] at hf
        cases hf
        rw [h2] at hd
        cases hd
    · rw [hr]
      refine ⟨rfl, by simp [upgradeCalls], rfl, ?_, ?_⟩
      · intro e1 v1 hf
        rw [h1] at hf
        cases hf
      · intro f1 v1 e1 v2 hf hd
        rw [h1] at hf
        cases hf
        rw [h2] at hd
        cases hd

/-- Witness for C7: without the artifact, `getContractFactory` throws in the deploy run and
`deployProxy` is not called; with the artifact and without a deployed proxy at "-",
`upgradeProxy` throws in the upgrade run and nothing but the error line and the exit
follows. -/
theorem scripts_linear_no_retry_witness :
    (deployCalls (Deploy.run (checkingHre []) ⟨true, []⟩).trace = [] ∧
      (Deploy.run (checkingHre []) ⟨true, []⟩).trace = [Event.getContractFactory "BankingNode",
        Event.error [JsVal.obj [("message", JsVal.str "artifact not found")]],
        Event.processExit 1]) ∧
    (Upgrade.run (checkingHre ["BankingNodeV2"]) ⟨true, []⟩).trace =
      [Event.getContractFactory "BankingNodeV2",
        Event.upgradeProxy (JsVal.str "-")
          (JsVal.obj [("contractName", JsVal.str "BankingNodeV2")]),
        Event.error [JsVal.obj [("message", JsVal.str "invalid address")]],
        Event.processExit 1] :=
  ⟨(scripts_linear_no_retry (checkingHre []) ⟨true, []⟩).1.2.2.2.1 _ _ rfl,
   (scripts_linear_no_retry (checkingHre ["BankingNodeV2"]) ⟨true, []⟩).2.2.2.2.2 _ _ _ _
     rfl rfl⟩

/-! ## The deploy step -/

/-- C8: every call of `deployProxy` the deploy script makes has the factory returned by
`getContractFactory("BankingNode")`, the empty array and the options with initializer
"initialize"; once the factory is obtained, the progress line is printed and then the call
is made; when the call returns a value whose `.address` reads as `a`, the lines on standard
output are the progress line and "Proxy of BankingNode deployed to:" with `a`; when the
call throws, the progress line is the only line on standard output. -/
theorem deploy_step_arguments_and_report {σ : Type} (hre : Hre σ) (w : σ) :
    (∀ c ∈ deployCalls (Deploy.run hre w).trace,
      (∃ w1, hre.getContractFactory "BankingNode" w = (Except.ok c.1, w1)) ∧
      c.2.1 = JsVal.arr [] ∧
      c.2.2 = JsVal.obj [("initializer", JsVal.str "initialize")]) ∧
    (∀ f w1, hre.getContractFactory "BankingNode" w = (Except.ok f, w1) →
      ∃ rest, (Deploy.run hre w).trace =
        [Event.getContractFactory "BankingNode",
          Event.log [JsVal.str "Deploying BankingNode, ProxyAdmin, and then Proxy..."],
          Event.deployProxy f (JsVal.arr [])
            (JsVal.obj [("initializer", JsVal.str "initialize")])] ++ rest ∧
        deployCalls rest = []) ∧
    (∀ f w1 p w2 a, hre.getContractFactory "BankingNode" w = (Except.ok f, w1) →
      hre.deployProxy f (JsVal.arr [])
        (JsVal.obj [("initializer", JsVal.str "initialize")]) w1 = (Except.ok p, w2) →
      p.getProp "address" = Except.ok a →
      stdout (Deploy.run hre w).trace =
        [[JsVal.str "Deploying BankingNode, ProxyAdmin, and then Proxy..."],
         [JsVal.str "Proxy of BankingNode deployed to:", a]]) ∧
    (∀ f w1 e w2, hre.getContractFactory "BankingNode" w = (Except.ok f, w1) →
      hre.deployProxy f (JsVal.arr [])
        (JsVal.obj [("initializer", JsVal.str "initialize")]) w1 = (Except.error e, w2) →
      stdout (Deploy.run hre w).trace =
        [[JsVal.str "Deploying BankingNode, ProxyAdmin, and then Proxy..."]]) := by
  have ho : Deploy.opts = JsVal.obj [("initializer", JsVal.str "initialize")] := rfl
  rcases deploy_run_cases hre w with ⟨e, w1, h1, hm, hr⟩ | ⟨f, w1, e, w2, h1, h2, hm, hr⟩ |
    ⟨f, w1, p, w2, e, h1, h2, h3, hm, hr⟩ | ⟨f, w1, p, w2, a, h1, h2, h3, hm, hr⟩
  · rw [hr]
    refine ⟨by simp [deployCalls], ?_, ?_, ?_⟩
    · intro f1 v1 hf
      rw [h1] at hf
      cases hf
    · intro f1 v1 p1 v2 a1 hf
      rw [h1] at hf
      cases hf
    · intro f1 v1 e1 v2 hf
      rw [h1] at hf
      cases hf
  · rw [ho] at h2 hr
    rw [hr]
    refine ⟨by simp [deployCalls, h1], ?_, ?_, ?_⟩
    · intro f1 v1 hf
      rw [h1] at hf
      cases hf
      exact ⟨_, rfl, rfl⟩
    · intro f1 v1 p1 v2 a1 hf hd
      rw [h1] at hf
      cases hf
      rw [h2] at hd
      cases hd
    · intro f1 v1 e1 v2 hf hd
      rfl
  · rw [ho] at h2 hr
    rw [hr]
    refine ⟨by simp [deployCalls, h1], ?_, ?_, ?_⟩
    · intro f1 v1 hf
      rw [h1] at hf
      cases hf
      exact ⟨_, rfl, rfl⟩
    · intro f1 v1 p1 v2 a1 hf hd ha
      rw [h1] at hf
      cases hf
      rw [h2] at hd
      cases hd
      rw [h3] at ha
      cases ha
    · intro f1 v1 e1 v2 hf hd
      rfl
  · rw [ho] at h2 hr
    rw [hr]
    refine ⟨by simp [deployCalls, h1], ?_, ?_, ?_⟩
    · intro f1 v1 hf
      rw [h1] at hf
      cases hf
      exact ⟨_, rfl, rfl⟩
    · intro f1 v1 p1 v2 a1 hf hd ha
      rw [h1] at hf
      cases hf
      rw [h2] at hd
      cases hd
      rw [h3] at ha
      cases ha
      rfl
    · intro f1 v1 e1 v2 hf hd
      rw [h1] at hf
      cases hf
      rw [h2] at hd
      cases hd

/-- Witness for C8: the deployment with the checking framework, node online, reports the
address of the proxy that `deployProxy` returned; with the node offline only the progress
line is printed. -/
theorem deploy_step_arguments_and_report_witness :
    stdout (Deploy.run (checkingHre ["BankingNode"]) ⟨true, []⟩).trace =
        [[JsVal.str "Deploying BankingNode, ProxyAdmin, and then Proxy..."],
         [JsVal.str "Proxy of BankingNode deployed to:",
          JsVal.str "0x5FbDB2315678afecb367f032d93F642f64180aa3"]] ∧
      stdout (Deploy.run (checkingHre ["BankingNode"]) ⟨false, []⟩).trace =
        [[JsVal.str "Deploying BankingNode, ProxyAdmin, and then Proxy..."]] :=
  ⟨(deploy_step_arguments_and_report (checkingHre ["BankingNode"]) ⟨true, []⟩).2.2.1
      _ _ _ _ _ rfl rfl rfl,
   (deploy_step_arguments_and_report (checkingHre ["BankingNode"]) ⟨false, []⟩).2.2.2
      _ _ _ _ rfl rfl⟩

/-! ## The task `accounts` -/

/-- A loop over a list of objects whose body prints the `address` property of its object:
it returns, and adds one line per object, in order. -/
theorem forOf_log_address {σ : Type} (body : JsVal → Script σ Unit)
    (hbody : ∀ s q, body (JsVal.obj s) q =
      (Except.ok (), ⟨q.world, q.trace ++ [Event.log [lookupProp s "address"]]⟩))
    (signers : List (List (String × JsVal))) (p : Proc σ) :
    forOf (signers.map JsVal.obj) body p =
      (Except.ok (), ⟨p.world,
        p.trace ++ signers.map (fun s => Event.log [lookupProp s "address"])⟩) := by
  induction signers generalizing p with
  | nil => simp [forOf, pure, Script.ret]
  | cons s rest ih =>
    rw [List.map_cons, forOf]
    show Script.andThen (body (JsVal.obj s)) (fun _ => forOf (rest.map JsVal.obj) body) p = _
    simp only [Script.andThen, hbody, ih, List.map_cons, List.append_assoc, List.singleton_append]

/-- The lines on standard output of a trace made of `console.log` calls only. -/
theorem stdout_map_log (lines : List (List JsVal)) :
    stdout (lines.map Event.log) = lines := by
  induction lines with
  | nil => rfl
  | cons l rest ih => simp [stdout, ih]

/-- C9: when `getSigners` returns an array of signer objects, the task `accounts` returns
and the lines it writes to standard output are exactly the `address` properties of those
signers, one line each, in the order of the array; there are as many lines as signers (none
for the empty array). -/
theorem accounts_task_prints_addresses {σ : Type} (hre : Hre σ) (w w1 : σ)
    (signers : List (List (String × JsVal)))
    (h : hre.getSigners w = (Except.ok (JsVal.arr (signers.map JsVal.obj)), w1)) :
    (accountsTask hre ⟨w, []⟩).1 = Except.ok () ∧
      stdout (accountsTask hre ⟨w, []⟩).2.trace =
        signers.map (fun s => [lookupProp s "address"]) ∧
      (stdout (accountsTask hre ⟨w, []⟩).2.trace).length = signers.length ∧
      (signers = [] → stdout (accountsTask hre ⟨w, []⟩).2.trace = []) := by
  have hrun : accountsTask hre ⟨w, []⟩ =
      (Except.ok (), ⟨w1, Event.getSigners ::
        signers.map (fun s => Event.log [lookupProp s "address"])⟩) := by
    simp only [accountsTask, bind, Script.andThen, getSigners, callHelper, liftExcept, h,
      iterate]
    rw [forOf_log_address _ (fun s q => rfl)]
    simp
  have hout : stdout (accountsTask hre ⟨w, []⟩).2.trace =
      signers.map (fun s => [lookupProp s "address"]) := by
    rw [hrun]
    have hm : signers.map (fun s => Event.log [lookupProp s "address"]) =
        (signers.map (fun s => [lookupProp s "address"])).map Event.log := by
      simp [List.map_map]
    simp only [stdout, hm, stdout_map_log]
  refine ⟨by rw [hrun], hout, by rw [hout, List.length_map], ?_⟩
  intro hs
  rw [hout, hs]
  rfl

/-- Witness for C9: the two signers of the checking framework are printed in order. -/
theorem accounts_task_prints_addresses_witness :
    (checkingHre []).getSigners ⟨true, []⟩ =
        (Except.ok (JsVal.arr ([
          [("address", JsVal.str "0xf39Fd6e51aad88F6F4ce6aB8827279cffFb92266")],
          [("address", JsVal.str "0x70997970C51812dc3A010C7d01b50e0d17dc79C8")]].map
            JsVal.obj)), ⟨true, []⟩) ∧
      stdout (accountsTask (checkingHre []) ⟨⟨true, []⟩, []⟩).2.trace =
        [[JsVal.str "0xf39Fd6e51aad88F6F4ce6aB8827279cffFb92266"],
         [JsVal.str "0x70997970C51812dc3A010C7d01b50e0d17dc79C8"]] :=
  ⟨rfl, (accounts_task_prints_addresses (checkingHre []) ⟨true, []⟩ ⟨true, []⟩
    [[("address", JsVal.str "0xf39Fd6e51aad88F6F4ce6aB8827279cffFb92266")],
     [("address", JsVal.str "0x70997970C51812dc3A010C7d01b50e0d17dc79C8")]] rfl).2.1⟩

/-! ## The exported configuration -/

/-- The url of the network `rinkeby` in the exported configuration is the constant
`RINKEBY_RPC_URL`. -/
theorem rinkebyUrl_moduleExports (env : Env) :
    rinkebyUrl (moduleExports env) = RINKEBY_RPC_URL env := by
  simp [rinkebyUrl, moduleExports, JsVal.path, lookupProp]

/-- C3: the url of the network `rinkeby` in the exported configuration is
"https://rinkeby.infura.io/v3/" when `RINKEBY_RPC_URL` is unset or the empty string, and is
the value of `RINKEBY_RPC_URL` when that is set to a non-empty string (and, for a set
variable, only then). -/
theorem rinkeby_url_default (env : Env) :
    ((env "RINKEBY_RPC_URL" = none ∨ env "RINKEBY_RPC_URL" = some "") →
      rinkebyUrl (moduleExports env) = JsVal.str "https://rinkeby.infura.io/v3/") ∧
    (∀ v, env "RINKEBY_RPC_URL" = some v → v ≠ "" →
      rinkebyUrl (moduleExports env) = JsVal.str v) ∧
    (∀ v, env "RINKEBY_RPC_URL" = some v →
      (rinkebyUrl (moduleExports env) = JsVal.str v ↔ v ≠ "")) := by
  rw [rinkebyUrl_moduleExports]
  refine ⟨?_, ?_, ?_⟩
  · rintro (h | h) <;> simp [RINKEBY_RPC_URL, Env.read, h, jsOr, JsVal.truthy]
  · intro v h hv
    simp [RINKEBY_RPC_URL, Env.read, h, jsOr, JsVal.truthy, hv]
  · intro v h
    by_cases hv : v = ""
    · subst hv
      simp [RINKEBY_RPC_URL, Env.read, h, jsOr, JsVal.truthy]
    · simp [RINKEBY_RPC_URL, Env.read, h, jsOr, JsVal.truthy, hv]

/-- Witness for C3: the default with an empty environment, the given value with one that
sets the variable. -/
theorem rinkeby_url_default_witness :
    rinkebyUrl (moduleExports emptyEnv) = JsVal.str "https://rinkeby.infura.io/v3/" ∧
      rinkebyUrl (moduleExports sampleEnv) = JsVal.str "https://rinkeby.example.org/rpc" :=
  ⟨(rinkeby_url_default emptyEnv).1 (Or.inl rfl),
   (rinkeby_url_default sampleEnv).2.1 "https://rinkeby.example.org/rpc" rfl (by decide)⟩

/-- C6: in every environment the networks table of the exported configuration has exactly
the entries `hardhat` (no settings), `local` (url "http://127.0.0.1:8545/") and `rinkeby`
(whose url is the constant `RINKEBY_RPC_URL`), the default network is "rinkeby", which is
an entry of the table, and the compiler version is "0.8.2". -/
theorem config_well_formed (env : Env) :
    ((moduleExports env).path ["networks"]).keys = ["hardhat", "local", "rinkeby"] ∧
    (moduleExports env).path ["networks", "hardhat"] = JsVal.obj [] ∧
    (moduleExports env).path ["networks", "local"] =
      JsVal.obj [("url", JsVal.str "http://127.0.0.1:8545/")] ∧
    ((moduleExports env).path ["networks", "rinkeby"]).keys =
      ["url", "accounts", "saveDeployments"] ∧
    (moduleExports env).path ["networks", "rinkeby", "url"] = RINKEBY_RPC_URL env ∧
    (moduleExports env).path ["defaultNetwork"] = JsVal.str "rinkeby" ∧
    (∃ name, (moduleExports env).path ["defaultNetwork"] = JsVal.str name ∧
      name ∈ ((moduleExports env).path ["networks"]).keys) ∧
    (moduleExports env).path ["solidity"] = JsVal.str "0.8.2" ∧
    (moduleExports env).keys = ["defaultNetwork", "networks", "solidity"] := by
  refine ⟨?_, ?_, ?_, ?_, ?_, ?_, ⟨"rinkeby", ?_, ?_⟩, ?_, ?_⟩ <;>
    simp [moduleExports, JsVal.path, JsVal.keys, lookupProp]

/-- The constant `RINKEBY_RPC_URL` reads the environment at the one name
"RINKEBY_RPC_URL". -/
theorem RINKEBY_RPC_URL_congr (env1 env2 : Env)
    (h : env1 "RINKEBY_RPC_URL" = env2 "RINKEBY_RPC_URL") :
    RINKEBY_RPC_URL env1 = RINKEBY_RPC_URL env2 := by
  simp [RINKEBY_RPC_URL, Env.read, h]

/-- C10: two environments that agree on `RINKEBY_RPC_URL` give equal exported
configurations; in particular setting `PRIVATE_KEY` to any value, or unsetting it, leaves
the exported configuration as it was, and the mnemonic of the `rinkeby` accounts is the
empty string in every environment. -/
theorem config_depends_only_on_rpc_url (env1 env2 : Env)
    (h : env1 "RINKEBY_RPC_URL" = env2 "RINKEBY_RPC_URL") :
    moduleExports env1 = moduleExports env2 ∧
    (∀ key : Option String,
      moduleExports (fun name => if name = "PRIVATE_KEY" then key else env1 name) =
        moduleExports env1) ∧
    (moduleExports env1).path ["networks", "rinkeby", "accounts", "mnemonic"] =
      JsVal.str "" := by
  refine ⟨?_, ?_, ?_⟩
  · simp only [moduleExports, RINKEBY_RPC_URL_congr env1 env2 h]
  · intro key
    unfold moduleExports
    rw [RINKEBY_RPC_URL_congr (fun name => if name = "PRIVATE_KEY" then key else env1 name)
      env1 (by simp)]
  · simp [moduleExports, JsVal.path, lookupProp]

/-- Witness for C10: an environment with both variables set, and the same with another
private key, export the same configuration. -/
theorem config_depends_only_on_rpc_url_witness :
    moduleExports sampleEnv =
        moduleExports (fun name => if name = "PRIVATE_KEY" then some "0xdef456"
          else sampleEnv name) ∧
      (moduleExports sampleEnv).path ["networks", "rinkeby", "accounts", "mnemonic"] =
        JsVal.str "" :=
  ⟨(config_depends_only_on_rpc_url sampleEnv
      (fun name => if name = "PRIVATE_KEY" then some "0xdef456" else sampleEnv name)
      (by decide)).1,
   (config_depends_only_on_rpc_url sampleEnv sampleEnv rfl).2.2⟩

end BNPL
